import Mathlib

/- Verification of the council orchestrator (src/council.rs): a shallow
embedding of its constraint catalog, selection policy, prompt builders,
executor-adapter output handling and result aggregation, with theorems about
the specified properties.

Modelling conventions:
- `rand::thread_rng` shuffling is embedded by passing the shuffled sequence
  explicitly, constrained to be a permutation of the sequence the source
  shuffles.
- Byte buffers (`Vec<u8>`) are `List Nat`; `String::from_utf8_lossy`, the
  identity on valid UTF-8, is modelled away: the cap arithmetic is byte
  arithmetic either way. The fixed marker and notice strings are ASCII, so
  their UTF-8 bytes are their characters' code points.
- The concurrent dispatch loop is embedded through the data each dispatch
  sends on the channel (`member_result`) and the collector's sort
  (`sort_outputs`); completion order becomes an arbitrary permutation. -/

/-- The `Constraint` record (src/council.rs:108-112). -/
structure Constraint where
  name : String
  prompt : String
  mandatory : Bool
deriving DecidableEq, Repr

/-- The fixed catalog `CONSTRAINTS` (src/council.rs:114-259), in source order,
with each lens's name, full prompt text and mandatory flag. -/
def CONSTRAINTS : List Constraint := [
  Constraint.mk "the_goal_goldratt"
    "CONSTRAINT: Analyze ONLY by first identifying the GLOBAL GOAL (the ultimate output/outcome the system exists to produce), then THE constraint limiting it, and how to exploit/elevate that constraint. Ignore non-constraints.

PERSONA: Think like Eliyahu Goldratt (Theory of Constraints) - First ask: What is the GLOBAL GOAL? (not local optimization, but the whole system's purpose). Then find the ONE constraint limiting throughput toward that goal. Any improvement not at the constraint is an illusion. Five Focusing Steps: 1) Identify 2) Exploit 3) Subordinate 4) Elevate 5) Repeat.

KEY QUESTIONS: What is the GLOBAL GOAL this system exists to achieve? What's the ONE constraint preventing more of that global output? Are we optimizing locally while ignoring global throughput? How do we exploit the constraint? What should we subordinate to it?"
    true,
  Constraint.mk "urgency_musk"
    "CONSTRAINT: Analyze ONLY what enables 10x faster iteration, deletion opportunities, and shipping urgency. Ignore perfection and process.

PERSONA: Think like Elon Musk - first principles physics, delete ruthlessly, ship with urgency, iterate fast.

KEY QUESTIONS: What can we delete entirely? What's the fastest path to shipping? Are we solving the right problem or optimizing the wrong thing? What would 10x this?"
    true,
  Constraint.mk "complexity_knuth"
    "CONSTRAINT: Analyze ONLY algorithmic complexity, data structure choices, and when optimization matters. Ignore architecture and style.

PERSONA: Think like Donald Knuth - \"Premature optimization is the root of all evil.\" Focus on the critical 3% where performance matters, not the 97% that doesn't. Prove correctness first.

KEY QUESTIONS: What's the actual time/space complexity? Is this in the critical 3% that matters? Are we optimizing prematurely? What's the simplest correct algorithm first?"
    false,
  Constraint.mk "types_czaplicki"
    "CONSTRAINT: Analyze ONLY type safety, API design, and preventing impossible states. Ignore implementation details and performance.

PERSONA: Think like Evan Czaplicki (Elm) - make impossible states impossible, design APIs where misuse is a compile error.

KEY QUESTIONS: What runtime failures could types prevent? Where can users misuse this API? How can we encode invariants in types?"
    false,
  Constraint.mk "errors_dijkstra"
    "CONSTRAINT: Analyze ONLY correctness, formal verification, error handling, and invariants. Ignore performance and features.

PERSONA: Think like Edsger Dijkstra - correctness by construction, not debugging into correctness. \"Program testing can show the presence of bugs, but never their absence.\" Prove it correct.

KEY QUESTIONS: What invariants must hold? Can we prove this is correct? What happens when X fails? How do we know this terminates? What can we eliminate to simplify proof?"
    false,
  Constraint.mk "simplicity_hickey"
    "CONSTRAINT: Analyze ONLY complexity, complecting (intertwining), and separation of concerns. Ignore features and performance.

PERSONA: Think like Rich Hickey - Simple (one braid) vs Easy (familiar). Choose simple even when hard.

KEY QUESTIONS: What are we complecting? Can we separate these concerns? Is this genuinely simple or just easy/familiar?"
    false,
  Constraint.mk "waste_ohno"
    "CONSTRAINT: Analyze ONLY waste, unnecessary work, and value flow. Ignore features and cleverness.

PERSONA: Think like Taiichi Ohno (Toyota Production System) - eliminate the 7 wastes (waiting, overproduction, defects, over-processing, motion, transport, inventory, unused talent).

KEY QUESTIONS: What's waste here? Where does value flow? What work adds no value? What's inventory hiding problems?"
    false,
  Constraint.mk "devex_spolsky"
    "CONSTRAINT: Analyze ONLY developer experience, API usability, error messages, and leaky abstractions. Ignore internals.

PERSONA: Think like Joel Spolsky - abstractions leak, prioritize developer experience, make the common case obvious.

KEY QUESTIONS: Where does this abstraction leak? Is the common case obvious? Are error messages helpful? Can this be misused?"
    false,
  Constraint.mk "tests_beck"
    "CONSTRAINT: Analyze ONLY test coverage, missing edge cases, test quality, and testability. Ignore existing code quality.

PERSONA: Think like Kent Beck (TDD) - make it work, make it right, make it fast (in that order). Let design emerge from tests.

KEY QUESTIONS: What's untested? What edge cases are missing? Are tests brittle? Does the design emerge from tests?"
    false,
  Constraint.mk "taste_torvalds"
    "CONSTRAINT: Analyze ONLY code taste, unnecessary complexity, and what should be deleted. Ignore features and requirements.

PERSONA: Think like Linus Torvalds - good taste is knowing what to leave out. Bad code is bad regardless of function.

KEY QUESTIONS: Does this have taste? Is this needlessly complex? What should we delete? Would I be embarrassed to show this?"
    false,
  Constraint.mk "pragmatic_carmack"
    "CONSTRAINT: Analyze ONLY shipping readiness, state management, and pragmatic functional approaches. Ignore theoretical purity.

PERSONA: Think like John Carmack - move toward functional purity to reduce state bugs, but ship pragmatically. \"The real enemy is unexpected mutation of state.\" Pure functions are easier to reason about.

KEY QUESTIONS: Will this actually ship? What state is being mutated unexpectedly? Can we make this function purer without killing performance? Is this abstraction premature or does it reduce state complexity?"
    false,
  Constraint.mk "refactor_fowler"
    "CONSTRAINT: Analyze ONLY code smells, refactoring opportunities, and pattern applications. Ignore new features.

PERSONA: Think like Martin Fowler - name the pattern, know when to apply vs avoid.

KEY QUESTIONS: What's the code smell? Which refactoring applies? What's the simplest transformation? When should we NOT use this pattern?"
    false,
  Constraint.mk "firstprinciples_feynman"
    "CONSTRAINT: Analyze ONLY fundamental physics/reality constraints vs arbitrary tradition. Ignore current implementation.

PERSONA: Think like Richard Feynman - break down to fundamentals, explain simply or you don't understand it.

KEY QUESTIONS: What are the actual physical constraints? Can I explain this to a child? What am I pretending to understand? What's physics vs convention?"
    false,
  Constraint.mk "delete_muratori"
    "CONSTRAINT: Analyze ONLY by identifying what to DELETE entirely - abstractions, layers, dependencies, code. Ignore features and additions.

PERSONA: Think like Casey Muratori (Handmade Hero) - most abstractions are HARMFUL. Compression-oriented programming: understand the problem domain so well you can delete the framework. The best code is NO code. Performance IS correctness.

KEY QUESTIONS: What abstraction can we delete entirely? What dependency can we remove? What layer is pure overhead? What would this look like with ZERO frameworks? Can we replace 10,000 lines of library with 100 lines that do exactly what we need? How many CPU cycles from input to output?"
    false,
  Constraint.mk "crash_armstrong"
    "CONSTRAINT: Analyze ONLY isolation, supervision trees, and embracing failure. Ignore prevention and defensive programming.

PERSONA: Think like Joe Armstrong (Erlang) - Let it crash. Build supervision, not defenses. Isolation > error handling. Most error handling code is waste—just restart the process. Immutability + message passing = simpler systems.

KEY QUESTIONS: What should we let crash instead of handling? Where's our supervision hierarchy? Can we isolate this so failure doesn't propagate? Are we writing defensive code that should be restart logic? What happens if we DELETE all the try-catch blocks? Can we make this stateless so crashes don't matter?"
    false,
  Constraint.mk "data_acton"
    "CONSTRAINT: Analyze ONLY memory layout, cache behavior, and data transformation pipelines. Ignore object models and abstractions.

PERSONA: Think like Mike Acton (Insomniac Games) - OOP is an expensive disaster. Structure code around memory access patterns, not abstractions. Data is all there is. The purpose of all programs is to transform data from one form to another.

KEY QUESTIONS: What's the cache miss rate? Are we storing arrays of structs or structs of arrays? Does this data layout match CPU reality? Can we delete the object model entirely? Where does the data come from, where does it go, and what transformations happen? How much memory are we wasting on indirection?"
    false
]
def member_tmpl_a : String :=
  "You are a council member analyzing with a specific constraint. There are "

def member_tmpl_b : String :=
  " council members, each with different orthogonal constraints.

"

def member_tmpl_c : String :=
  "

YOUR TASK:
"

def member_tmpl_d : String :=
  "

YOUR OUTPUT REQUIREMENTS:
1. Executive summary (2-3 sentences) from your constraint's perspective ONLY
2. Detailed analysis with specific insights labeled ["

def member_tmpl_e : String :=
  "]
3. Recommendations with file paths and line numbers where applicable
4. Risks and trade-offs within your constraint area

Quality over quantity - 5 constraint-specific insights > 20 generic observations.
If your analysis could come from any other constraint, you're doing it WRONG."

def heavy_rule : String :=
  String.mk (List.replicate 63 '═')

def analysis_tmpl_a : String :=
  heavy_rule ++ "
MEMBER #"

def analysis_tmpl_b : String :=
  ": "

def analysis_tmpl_c : String :=
  "
" ++ heavy_rule ++ "

"

def analysis_tmpl_d : String :=
  ""

def synth_tmpl_a : String :=
  "You are a master synthesizer analyzing insights from "

def synth_tmpl_b : String :=
  " council members who each analyzed through different constraints.

YOUR TASK:
Synthesize the following analyses into ONE coherent, actionable recommendation.

ORIGINAL TASK:
"

def synth_tmpl_c : String :=
  "

COUNCIL ANALYSES:
"

def synth_tmpl_d : String :=
  "

YOUR SYNTHESIS REQUIREMENTS:

1. EXECUTIVE SUMMARY (3-4 sentences)
   - What's the core issue?
   - What's the recommended solution?
   - What's the expected impact?

2. CONSOLIDATED FINDINGS
   - Identify common themes across multiple constraints
   - Highlight unique insights from specific constraints
   - Resolve any conflicting recommendations (explain which to prioritize and why)

3. PRIORITIZED ACTION PLAN
   - List specific changes in priority order (P0/P1/P2)
   - For each item: file:line, what to change, why, expected impact
   - Include concrete code snippets where applicable

4. RISKS & TRADE-OFFS
   - What are we trading off?
   - What could go wrong?
   - How to mitigate?

5. IMPLEMENTATION ROADMAP
   - What order to tackle changes?
   - What dependencies exist?

Be concise but specific. The goal is ONE clear path forward, not multiple options.
Focus on ACTIONABLE recommendations with clear next steps."

/-- The `mandatory` partition built inside `select_constraints`
(src/council.rs:265): all catalog lenses with `mandatory = true`, in catalog
order. -/
def mandatory_constraints : List Constraint :=
  CONSTRAINTS.filter (fun c => c.mandatory)

/-- The `others` partition built inside `select_constraints`
(src/council.rs:266): all catalog lenses with `mandatory = false`, in catalog
order. -/
def other_constraints : List Constraint :=
  CONSTRAINTS.filter (fun c => !c.mandatory)

/-- `select_constraints` (src/council.rs:261-279). The source shuffles the
optional lenses with `thread_rng`; the shuffled sequence is passed in
explicitly as `shuffled`, and the theorems constrain it to be a permutation of
`other_constraints`. -/
def select_constraints (n : Nat) (shuffled : List Constraint) : List Constraint :=
  let selected := mandatory_constraints
  if n > selected.length then
    selected ++ shuffled.take (n - selected.length)
  else
    selected

/-- Rust `str::to_uppercase`, modelled as the character-wise uppercase map
(every catalog name is ASCII, where the two agree). -/
def to_uppercase (s : String) : String :=
  String.mk (s.data.map Char.toUpper)

/-- Rust `[String]::join(sep)` (src/council.rs:314). -/
def join_sep (sep : String) : List String → String
  | [] => ""
  | [a] => a
  | a :: b :: rest => a ++ sep ++ join_sep sep (b :: rest)

/-- `create_prompt` (src/council.rs:281-300): the member-prompt format string
split at its four holes into the literal pieces `member_tmpl_a` …
`member_tmpl_e`, filled with the member count, the lens's prompt, the task and
the lens's name. -/
def create_prompt (constraint : Constraint) (task : String) (num_members : Nat) : String :=
  member_tmpl_a ++ toString num_members ++ member_tmpl_b ++ constraint.prompt ++
    member_tmpl_c ++ task ++ member_tmpl_d ++ constraint.name ++ member_tmpl_e

/-- One element of the `analyses` map inside `create_synthesis_prompt`
(src/council.rs:303-313): the per-member block format string split at its
three holes, filled with `id + 1`, the uppercased lens name and the member's
text. -/
def member_analysis (entry : Nat × String × String) : String :=
  analysis_tmpl_a ++ toString (entry.1 + 1) ++ analysis_tmpl_b ++
    to_uppercase entry.2.1 ++ analysis_tmpl_c ++ entry.2.2 ++ analysis_tmpl_d

/-- `create_synthesis_prompt` (src/council.rs:302-360): the synthesis format
string split at its three holes, filled with the result count, the original
task and the joined per-member blocks. -/
def create_synthesis_prompt (outputs : List (Nat × String × String)) (task : String) : String :=
  let analyses := join_sep "\n\n" (outputs.map member_analysis)
  synth_tmpl_a ++ toString outputs.length ++ synth_tmpl_b ++ task ++ synth_tmpl_c ++
    analyses ++ synth_tmpl_d

/-- `MAX_OUTPUT_BYTES` (src/council.rs:19). -/
def MAX_OUTPUT_BYTES : Nat := 500000

/-- UTF-8 bytes of an ASCII string: one byte per character, the code point. -/
def str_bytes (s : String) : List Nat :=
  s.data.map Char.toNat

/-- The marker prepended to captured stderr, `b"\n[stderr]: "`
(src/council.rs:384). -/
def stderr_marker : List Nat :=
  str_bytes "\n[stderr]: "

/-- Lines 382-386 of src/council.rs: stdout, then — only when stderr is
non-empty — the marker and stderr. -/
def combine_outputs (stdout stderr : List Nat) : List Nat :=
  if stderr.isEmpty then stdout else stdout ++ stderr_marker ++ stderr

/-- The truncation notice appended when the cap is exceeded
(src/council.rs:391-395): `format!("\n\n[Output truncated at {}KB]",
MAX_OUTPUT_BYTES / 1000)`. -/
def trunc_notice : List Nat :=
  str_bytes ("\n\n[Output truncated at " ++ toString (MAX_OUTPUT_BYTES / 1000) ++ "KB]")

/-- The truncation step of `run_claude`'s success branch
(src/council.rs:388-398): keep the first `min len MAX_OUTPUT_BYTES` bytes and,
when the cap was exceeded, append the truncation notice. -/
def truncate_step (combined : List Nat) : List Nat :=
  let truncated := combined.take (min combined.length MAX_OUTPUT_BYTES)
  if combined.length > MAX_OUTPUT_BYTES then truncated ++ trunc_notice else truncated

/-- The whole success branch of `run_claude` (src/council.rs:380-398), at the
byte level. -/
def run_claude_success (stdout stderr : List Nat) : List Nat :=
  truncate_step (combine_outputs stdout stderr)

/-- `Err(format!("Process failed: {}", e))` (src/council.rs:400). -/
def process_failed_error (e : String) : String :=
  "Process failed: " ++ e

/-- `Err(format!("Timed out after {}s", timeout_secs))` (src/council.rs:401). -/
def timed_out_error (timeout_secs : Nat) : String :=
  "Timed out after " ++ toString timeout_secs ++ "s"

/-- `result.unwrap_or_else(|e| format!("[Member {} error: {}]", i + 1, e))`
(src/council.rs:494): a failed dispatch becomes placeholder text, never a
propagated error. -/
def member_text (i : Nat) (result : Except String String) : String :=
  match result with
  | Except.ok t => t
  | Except.error e => "[Member " ++ toString (i + 1) ++ " error: " ++ e ++ "]"

/-- The triple slot `i`'s dispatch sends on the channel
(src/council.rs:492-498). -/
def member_result (i : Nat) (name : String) (result : Except String String) :
    Nat × String × String :=
  (i, name, member_text i result)

/-- `outputs.sort_by_key(|(id, _, _)| *id)` (src/council.rs:511): a stable
sort of the collected results by slot index. -/
def sort_outputs (outputs : List (Nat × String × String)) : List (Nat × String × String) :=
  outputs.mergeSort (fun a b => decide (a.1 ≤ b.1))

/-- One executor-adapter invocation: the prompt, timeout and model
`run_claude` is called with. -/
structure ExecCall where
  prompt : String
  timeout : Nat
  model : Option String
deriving DecidableEq, Repr

/-- The executor invocations made by the synthesis phase
(src/council.rs:537-557): none under `--no-synthesize`, otherwise exactly one,
on the synthesis prompt with the run's timeout and model. -/
def synthesis_calls (no_synthesize : Bool) (outputs : List (Nat × String × String))
    (task : String) (timeout : Nat) (model : Option String) : List ExecCall :=
  if no_synthesize then []
  else [ExecCall.mk (create_synthesis_prompt outputs task) timeout model]

/-- `containsInOrder s pieces`: the strings `pieces` occur in `s` in the given
order, at pairwise disjoint positions (each piece has its own occurrence). -/
def containsInOrder : String → List String → Prop
  | _, [] => True
  | s, p :: ps => ∃ a b, s = a ++ p ++ b ∧ containsInOrder b ps

/-- `member_tmpl_d` up to (excluding) its final "labeled [": used to isolate
the labeling instruction inside the member prompt. -/
def member_tmpl_d_pre : String :=
  "

YOUR OUTPUT REQUIREMENTS:
1. Executive summary (2-3 sentences) from your constraint's perspective ONLY
2. Detailed analysis with specific insights "

/-- The middle of `member_tmpl_e`, between its leading "]" and its final
non-generic-output instruction line. -/
def member_tmpl_e_mid : String :=
  "
3. Recommendations with file paths and line numbers where applicable
4. Risks and trade-offs within your constraint area

Quality over quantity - 5 constraint-specific insights > 20 generic observations.
"

/-- The final line of the member prompt: the instruction that the analysis
must not be generic or interchangeable with other lenses' output. -/
def member_nongeneric_line : String :=
  "If your analysis could come from any other constraint, you're doing it WRONG."

/-- The executor invocations made for the member dispatches
(src/council.rs:483-499): one per selected lens, each on its member prompt
with the run's timeout and model. -/
def member_calls (constraints : List Constraint) (task : String) (timeout : Nat)
    (model : Option String) : List ExecCall :=
  constraints.map (fun c => ExecCall.mk (create_prompt c task constraints.length) timeout model)

/-- A piece found between two known segments of a string. -/
theorem containsInOrder_single (a p b : String) : containsInOrder (a ++ p ++ b) [p] :=
  ⟨a, b, rfl, trivial⟩

/-- A piece found as the last segment of a string. -/
theorem containsInOrder_pair (a p : String) : containsInOrder (a ++ p) [p] :=
  ⟨a, "", by simp, trivial⟩

/-- Prepending text preserves piece containment. -/
theorem containsInOrder_prepend (a s : String) (ps : List String)
    (h : containsInOrder s ps) : containsInOrder (a ++ s) ps := by
  cases ps with
  | nil => trivial
  | cons p ps =>
    obtain ⟨x, y, hxy, hrest⟩ := h
    exact ⟨a ++ x, y, by rw [hxy]; simp [String.append_assoc], hrest⟩

/-- Appending text preserves piece containment. -/
theorem containsInOrder_append_right (s t : String) (ps : List String)
    (h : containsInOrder s ps) : containsInOrder (s ++ t) ps := by
  induction ps generalizing s with
  | nil => trivial
  | cons p ps ih =>
    obtain ⟨x, y, hxy, hrest⟩ := h
    exact ⟨x, y ++ t, by rw [hxy]; simp [String.append_assoc], ih y hrest⟩

/-- Containments concatenate. -/
theorem containsInOrder_concat (s t : String) (ps qs : List String)
    (hs : containsInOrder s ps) (ht : containsInOrder t qs) :
    containsInOrder (s ++ t) (ps ++ qs) := by
  induction ps generalizing s with
  | nil => exact containsInOrder_prepend s t qs ht
  | cons p ps ih =>
    obtain ⟨x, y, hxy, hrest⟩ := hs
    exact ⟨x, y ++ t, by rw [hxy]; simp [String.append_assoc], ih y hrest⟩

/-- Dropping the first piece preserves containment. -/
theorem containsInOrder_tail (s : String) (p : String) (ps : List String)
    (h : containsInOrder s (p :: ps)) : containsInOrder s ps := by
  obtain ⟨x, y, hxy, hrest⟩ := h
  rw [hxy]
  exact containsInOrder_prepend (x ++ p) y ps hrest

set_option maxRecDepth 4000 in
/-- The labeling-instruction split of `member_tmpl_d`. -/
theorem member_tmpl_d_split : member_tmpl_d = member_tmpl_d_pre ++ "labeled [" := by decide

set_option maxRecDepth 4000 in
/-- The split of `member_tmpl_e` around its middle. -/
theorem member_tmpl_e_split :
    member_tmpl_e = "]" ++ member_tmpl_e_mid ++ member_nongeneric_line := by decide

set_option maxRecDepth 4000 in
/-- The catalog's sixteen lens names are pairwise distinct. -/
theorem constraints_names_nodup : (CONSTRAINTS.map (fun c => c.name)).Nodup := by decide

/-- The catalog has no repeated lens. -/
theorem constraints_nodup : CONSTRAINTS.Nodup :=
  constraints_names_nodup.of_map _

/-- The mandatory partition has no repeated lens. -/
theorem mandatory_constraints_nodup : mandatory_constraints.Nodup :=
  constraints_nodup.filter _

/-- The optional partition has no repeated lens. -/
theorem other_constraints_nodup : other_constraints.Nodup :=
  constraints_nodup.filter _

/-- A lens of the optional partition is not mandatory. -/
theorem mem_other_constraints_not_mandatory (c : Constraint)
    (h : c ∈ other_constraints) : c.mandatory = false := by
  have := (List.mem_filter.mp h).2
  simpa using this

/-- A mandatory catalog lens belongs to the mandatory partition. -/
theorem mem_mandatory_constraints (c : Constraint) (hc : c ∈ CONSTRAINTS)
    (hm : c.mandatory = true) : c ∈ mandatory_constraints :=
  List.mem_filter.mpr ⟨hc, by simp [hm]⟩

/-- `select_constraints` always equals the mandatory partition followed by a
take of the shuffled optional lenses (an empty take when `n` does not exceed
the mandatory count). -/
theorem select_constraints_eq (n : Nat) (shuffled : List Constraint) :
    select_constraints n shuffled =
      mandatory_constraints ++ shuffled.take (n - mandatory_constraints.length) := by
  by_cases h : n > mandatory_constraints.length
  · simp [select_constraints, h]
  · have h0 : n - mandatory_constraints.length = 0 := by omega
    simp [select_constraints, h, h0]

/-- There are two mandatory lenses in the catalog. -/
theorem mandatory_constraints_length : mandatory_constraints.length = 2 := by decide

/-- There are fourteen optional lenses in the catalog. -/
theorem other_constraints_length : other_constraints.length = 14 := by decide

/-- The catalog holds sixteen lenses. -/
theorem constraints_length : CONSTRAINTS.length = 16 := by decide

/-- A member of the appended take part is an optional lens. -/
theorem mem_take_shuffled_not_mandatory (shuffled : List Constraint)
    (h : List.Perm shuffled other_constraints) (k : Nat) (c : Constraint)
    (hc : c ∈ shuffled.take k) : c.mandatory = false :=
  mem_other_constraints_not_mandatory c (h.mem_iff.mp ((List.take_sublist k shuffled).mem hc))

/-- Claim C1: for every requested size `n` and every shuffle of the optional
lenses, `select_constraints` returns a selection that contains every mandatory
lens of the catalog exactly once and contains no lens twice. -/
theorem select_constraints_mandatory_once (n : Nat) (shuffled : List Constraint)
    (h : List.Perm shuffled other_constraints) :
    (∀ c ∈ CONSTRAINTS, c.mandatory = true →
      (select_constraints n shuffled).count c = 1) ∧
    (select_constraints n shuffled).Nodup := by
  rw [select_constraints_eq]
  constructor
  · intro c hc hm
    rw [List.count_append]
    have h1 : mandatory_constraints.count c = 1 :=
      List.count_eq_one_of_mem mandatory_constraints_nodup (mem_mandatory_constraints c hc hm)
    have h0 : (shuffled.take (n - mandatory_constraints.length)).count c = 0 := by
      refine List.count_eq_zero.mpr (fun hmem => ?_)
      have := mem_take_shuffled_not_mandatory shuffled h _ c hmem
      rw [hm] at this
      exact Bool.noConfusion this
    rw [h1, h0]
  · refine List.Nodup.append mandatory_constraints_nodup ?_ ?_
    · exact (List.take_sublist _ _).nodup (h.nodup_iff.mpr other_constraints_nodup)
    · intro c hcm hct
      have hman : c.mandatory = true := by
        have := (List.mem_filter.mp hcm).2
        simpa using this
      have := mem_take_shuffled_not_mandatory shuffled h _ c hct
      rw [hman] at this
      exact Bool.noConfusion this

/-- Witness for C1 at `n = 5` with the identity shuffle. -/
theorem select_constraints_mandatory_once_witness :
    List.Perm other_constraints other_constraints ∧
    ((∀ c ∈ CONSTRAINTS, c.mandatory = true →
      (select_constraints 5 other_constraints).count c = 1) ∧
    (select_constraints 5 other_constraints).Nodup) :=
  ⟨List.Perm.refl _,
    select_constraints_mandatory_once 5 other_constraints (List.Perm.refl _)⟩

/-- Claim C2: the selection always begins with the full mandatory partition in
catalog order; when `n` is at most the mandatory count the selection is
exactly the mandatory partition (so requesting `n = 1` still yields the two
mandatory lenses, not one); and when `n` exceeds the mandatory count the
selection's length is `min n (catalog size)`. -/
theorem select_constraints_shape (n : Nat) (shuffled : List Constraint)
    (h : List.Perm shuffled other_constraints) :
    (∃ rest, select_constraints n shuffled = mandatory_constraints ++ rest) ∧
    (n ≤ mandatory_constraints.length →
      select_constraints n shuffled = mandatory_constraints) ∧
    (select_constraints 1 shuffled).length = 2 ∧
    (mandatory_constraints.length < n →
      (select_constraints n shuffled).length = min n CONSTRAINTS.length) := by
  have hsh : shuffled.length = 14 := by
    rw [h.length_eq]; exact other_constraints_length
  have hlen : ∀ m : Nat, (select_constraints m shuffled).length =
      2 + min (m - 2) 14 := by
    intro m
    rw [select_constraints_eq, List.length_append, List.length_take, hsh,
      mandatory_constraints_length]
  refine ⟨⟨shuffled.take (n - mandatory_constraints.length), select_constraints_eq n shuffled⟩,
    ?_, ?_, ?_⟩
  · intro hn
    rw [select_constraints_eq]
    have h0 : n - mandatory_constraints.length = 0 := by omega
    rw [h0]
    simp
  · rw [hlen 1]; decide
  · intro hn
    rw [hlen n, constraints_length]
    rw [mandatory_constraints_length] at hn
    omega

/-- Witness for C2 at `n = 1` with the identity shuffle. -/
theorem select_constraints_shape_witness :
    List.Perm other_constraints other_constraints ∧
    ((∃ rest, select_constraints 1 other_constraints = mandatory_constraints ++ rest) ∧
    (1 ≤ mandatory_constraints.length →
      select_constraints 1 other_constraints = mandatory_constraints) ∧
    (select_constraints 1 other_constraints).length = 2 ∧
    (mandatory_constraints.length < 1 →
      (select_constraints 1 other_constraints).length = min 1 CONSTRAINTS.length)) :=
  ⟨List.Perm.refl _, select_constraints_shape 1 other_constraints (List.Perm.refl _)⟩

/-- The truncation notice is 29 bytes long. -/
theorem trunc_notice_length : trunc_notice.length = 29 := by decide

/-- What `truncate_step` does below and above the cap. -/
theorem truncate_step_cases (combined : List Nat) :
    truncate_step combined =
      if combined.length ≤ MAX_OUTPUT_BYTES then combined
      else combined.take MAX_OUTPUT_BYTES ++ trunc_notice := by
  by_cases hc : combined.length ≤ MAX_OUTPUT_BYTES
  · have hmin : min combined.length MAX_OUTPUT_BYTES = combined.length :=
      Nat.min_eq_left hc
    have hgt : ¬ combined.length > MAX_OUTPUT_BYTES := by omega
    simp [truncate_step, hmin, hgt, hc, List.take_of_length_le (Nat.le_refl _)]
  · have hmin : min combined.length MAX_OUTPUT_BYTES = MAX_OUTPUT_BYTES :=
      Nat.min_eq_right (by omega)
    have hgt : combined.length > MAX_OUTPUT_BYTES := by omega
    simp [truncate_step, hmin, hgt, hc]

/-- Claim C4: the executor adapter's truncation step is idempotent — applying
it to an output it already produced returns that output unchanged (in the
over-cap case the second pass cuts off exactly the appended notice and then
re-appends it). -/
theorem truncate_step_idempotent (combined : List Nat) :
    truncate_step (truncate_step combined) = truncate_step combined := by
  rw [truncate_step_cases combined]
  by_cases hc : combined.length ≤ MAX_OUTPUT_BYTES
  · rw [if_pos hc, truncate_step_cases, if_pos hc]
  · rw [if_neg hc]
    have htake : (combined.take MAX_OUTPUT_BYTES).length = MAX_OUTPUT_BYTES := by
      rw [List.length_take]
      omega
    have hlen : (combined.take MAX_OUTPUT_BYTES ++ trunc_notice).length =
        MAX_OUTPUT_BYTES + 29 := by
      rw [List.length_append, htake, trunc_notice_length]
    rw [truncate_step_cases, if_neg (by omega)]
    rw [List.take_append_of_le_length (by omega), List.take_take]
    rw [Nat.min_self]

/-- Claim C5: on a successful external call the adapter returns stdout with
stderr appended after the marker exactly when stderr is non-empty; the result
is returned whole when the combined byte length is within the 500,000-byte
cap, and otherwise is the prefix up to the cap followed by the truncation
notice, which spells out the cap size ("500KB"). -/
theorem run_claude_success_spec (stdout stderr : List Nat) :
    run_claude_success stdout stderr =
      (if (stdout ++ if stderr = [] then [] else stderr_marker ++ stderr).length ≤
          MAX_OUTPUT_BYTES
       then stdout ++ if stderr = [] then [] else stderr_marker ++ stderr
       else (stdout ++ if stderr = [] then [] else stderr_marker ++ stderr).take
              MAX_OUTPUT_BYTES ++ trunc_notice) ∧
    (∃ u v, trunc_notice = u ++ str_bytes "500KB" ++ v) := by
  constructor
  · have hcomb : combine_outputs stdout stderr =
        stdout ++ if stderr = [] then [] else stderr_marker ++ stderr := by
      by_cases he : stderr = []
      · simp [combine_outputs, he]
      · have : ¬ stderr.isEmpty := by simpa [List.isEmpty_iff] using he
        simp [combine_outputs, this, he, List.append_assoc]
    rw [run_claude_success, truncate_step_cases, hcomb]
  · exact ⟨str_bytes "\n\n[Output truncated at ", str_bytes "]", by decide⟩

/-- Claim C10: whenever the combined output exceeds the cap, the text the
adapter returns is itself longer than the cap — the 500,000-byte ceiling
bounds only the kept prefix, and the appended notice pushes the returned
length to exactly cap + 29. -/
theorem truncated_return_exceeds_cap (stdout stderr : List Nat)
    (h : MAX_OUTPUT_BYTES < (combine_outputs stdout stderr).length) :
    (run_claude_success stdout stderr).length = MAX_OUTPUT_BYTES + 29 ∧
    MAX_OUTPUT_BYTES < (run_claude_success stdout stderr).length := by
  have hstep : run_claude_success stdout stderr =
      (combine_outputs stdout stderr).take MAX_OUTPUT_BYTES ++ trunc_notice := by
    rw [run_claude_success, truncate_step_cases, if_neg (by omega)]
  have hlen : (run_claude_success stdout stderr).length = MAX_OUTPUT_BYTES + 29 := by
    rw [hstep, List.length_append, List.length_take, trunc_notice_length]
    omega
  exact ⟨hlen, by omega⟩

/-- Witness for C10: a 500,001-byte stdout with empty stderr exceeds the cap,
and the returned text is longer than the cap. -/
theorem truncated_return_exceeds_cap_witness :
    MAX_OUTPUT_BYTES < (combine_outputs (List.replicate 500001 0) []).length ∧
    MAX_OUTPUT_BYTES < (run_claude_success (List.replicate 500001 0) []).length := by
  have hc : combine_outputs (List.replicate 500001 0) [] = List.replicate 500001 0 := rfl
  have h : MAX_OUTPUT_BYTES < (combine_outputs (List.replicate 500001 0) []).length := by
    rw [hc, List.length_replicate]
    decide
  exact ⟨h, (truncated_return_exceeds_cap (List.replicate 500001 0) [] h).2⟩

/-- Claim C6: a completed dispatch always yields a member triple tagged with
its slot and lens name; a timeout or process failure of the executor call is
converted into placeholder text that names the slot (as `i + 1`, the display
number) and carries the full failure reason, never propagated as an error. -/
theorem dispatch_failure_isolated (i : Nat) (name : String) (t : Nat) (e : String)
    (r : Except String String) :
    containsInOrder (member_result i name (Except.error (timed_out_error t))).2.2
      [toString (i + 1), timed_out_error t] ∧
    containsInOrder (member_result i name (Except.error (process_failed_error e))).2.2
      [toString (i + 1), process_failed_error e] ∧
    (member_result i name r).1 = i ∧
    (member_result i name r).2.1 = name := by
  refine ⟨?_, ?_, rfl, rfl⟩
  · have hs : (member_result i name (Except.error (timed_out_error t))).2.2 =
        ("[Member " ++ toString (i + 1)) ++ (" error: " ++ timed_out_error t ++ "]") := by
      simp [member_result, member_text, String.append_assoc]
    rw [hs]
    exact containsInOrder_concat _ _ [toString (i + 1)] [timed_out_error t]
      (containsInOrder_pair _ _) (containsInOrder_single _ _ _)
  · have hs : (member_result i name (Except.error (process_failed_error e))).2.2 =
        ("[Member " ++ toString (i + 1)) ++ (" error: " ++ process_failed_error e ++ "]") := by
      simp [member_result, member_text, String.append_assoc]
    rw [hs]
    exact containsInOrder_concat _ _ [toString (i + 1)] [process_failed_error e]
      (containsInOrder_pair _ _) (containsInOrder_single _ _ _)

/-- Claim C9: the member prompt embeds, in template order, the total member
count, the lens's full persona/constraint text verbatim, the task text
verbatim, the instruction labeling the output with the lens's name, and the
instruction forbidding generic, interchangeable analysis. -/
theorem member_prompt_embeds (c : Constraint) (task : String) (num_members : Nat) :
    containsInOrder (create_prompt c task num_members)
      [toString num_members, c.prompt, task, "labeled [" ++ c.name ++ "]",
        member_nongeneric_line] := by
  have h : create_prompt c task num_members =
      (member_tmpl_a ++ toString num_members) ++ ((member_tmpl_b ++ c.prompt) ++
        ((member_tmpl_c ++ task) ++ ((member_tmpl_d_pre ++ ("labeled [" ++ c.name ++ "]")) ++
          (member_tmpl_e_mid ++ member_nongeneric_line)))) := by
    simp only [create_prompt, member_tmpl_d_split, member_tmpl_e_split, String.append_assoc]
  rw [h]
  refine containsInOrder_concat _ _ [toString num_members] _ (containsInOrder_pair _ _) ?_
  refine containsInOrder_concat _ _ [c.prompt] _ (containsInOrder_pair _ _) ?_
  refine containsInOrder_concat _ _ [task] _ (containsInOrder_pair _ _) ?_
  exact containsInOrder_concat _ _ ["labeled [" ++ c.name ++ "]"] _
    (containsInOrder_pair _ _) (containsInOrder_pair _ _)

/-- One per-member block of the synthesis prompt carries the uppercased lens
name and then the member's full text. -/
theorem member_analysis_embeds (e : Nat × String × String) :
    containsInOrder (member_analysis e) [to_uppercase e.2.1, e.2.2] := by
  have h : member_analysis e =
      ((analysis_tmpl_a ++ toString (e.1 + 1) ++ analysis_tmpl_b) ++ to_uppercase e.2.1) ++
        (analysis_tmpl_c ++ e.2.2 ++ analysis_tmpl_d) := by
    simp [member_analysis, String.append_assoc]
  rw [h]
  exact containsInOrder_concat _ _ [to_uppercase e.2.1] [e.2.2]
    (containsInOrder_pair _ _) (containsInOrder_single _ _ _)

/-- The joined analyses section carries every member's uppercased lens name
and full text, in input (slot) order. -/
theorem join_analyses_embeds (outputs : List (Nat × String × String)) :
    containsInOrder (join_sep "\n\n" (outputs.map member_analysis))
      (outputs.flatMap (fun e => [to_uppercase e.2.1, e.2.2])) := by
  induction outputs with
  | nil => trivial
  | cons a rest ih =>
    cases rest with
    | nil =>
      simpa [join_sep] using member_analysis_embeds a
    | cons b rest2 =>
      have h : join_sep "\n\n" ((a :: b :: rest2).map member_analysis) =
          member_analysis a ++
            ("\n\n" ++ join_sep "\n\n" ((b :: rest2).map member_analysis)) := by
        simp [join_sep, String.append_assoc]
      rw [List.flatMap_cons, h]
      exact containsInOrder_concat _ _ _ _ (member_analysis_embeds a)
        (containsInOrder_prepend _ _ _ ih)

/-- The synthesis prompt carries the result count, the task, and every
result's uppercased lens name and full text, in slot order. -/
theorem synthesis_prompt_embeds (outputs : List (Nat × String × String)) (task : String) :
    containsInOrder (create_synthesis_prompt outputs task)
      ([toString outputs.length, task] ++
        outputs.flatMap (fun e => [to_uppercase e.2.1, e.2.2])) := by
  have h : create_synthesis_prompt outputs task =
      (synth_tmpl_a ++ toString outputs.length) ++ ((synth_tmpl_b ++ task) ++
        (synth_tmpl_c ++ (join_sep "\n\n" (outputs.map member_analysis) ++ synth_tmpl_d))) := by
    simp [create_synthesis_prompt, String.append_assoc]
  rw [h]
  refine containsInOrder_concat _ _ [toString outputs.length] _ (containsInOrder_pair _ _) ?_
  refine containsInOrder_concat _ _ [task] _ (containsInOrder_pair _ _) ?_
  exact containsInOrder_prepend _ _ _
    (containsInOrder_append_right _ _ _ (join_analyses_embeds outputs))

/-- The collector's sort leaves the results ordered by slot key. -/
theorem sort_outputs_sorted (arr : List (Nat × String × String)) :
    (sort_outputs arr).Pairwise (fun a b => a.1 ≤ b.1) := by
  have h : (List.mergeSort arr (fun a b => decide (a.1 ≤ b.1))).Pairwise
      (fun a b => decide (a.1 ≤ b.1) = true) :=
    List.sorted_mergeSort
      (fun a b c h₁ h₂ => by
        simp only [decide_eq_true_eq] at h₁ h₂ ⊢
        omega)
      (fun a b => by simpa using Nat.le_total a.1 b.1) arr
  exact h.imp (fun hab => of_decide_eq_true hab)

/-- Sorting any arrival permutation of the slot-numbered results by slot
restores exactly the original (enumerated) sequence. -/
theorem sort_outputs_eq_enum (canonical : List (String × String))
    (arr : List (Nat × String × String))
    (h : List.Perm arr canonical.enum) : sort_outputs arr = canonical.enum := by
  have hperm : List.Perm (sort_outputs arr) canonical.enum :=
    (List.mergeSort_perm arr _).trans h
  have hkeys : ((sort_outputs arr).map Prod.fst).Nodup := by
    refine ((hperm.map Prod.fst).nodup_iff).mpr ?_
    rw [List.enum_map_fst]
    exact List.nodup_range _
  have hle : (sort_outputs arr).Pairwise (fun a b => a.1 ≤ b.1) := sort_outputs_sorted arr
  have hne : (sort_outputs arr).Pairwise (fun a b => a.1 ≠ b.1) := List.pairwise_map.mp hkeys
  have hlt : (sort_outputs arr).Pairwise (fun a b => a.1 < b.1) :=
    (hle.and hne).imp (fun hab => Nat.lt_of_le_of_ne hab.1 hab.2)
  have henum : canonical.enum.Pairwise (fun a b => a.1 < b.1) := by
    have h1 : (canonical.enum.map Prod.fst).Pairwise (fun a b => a < b) := by
      rw [List.enum_map_fst]
      exact List.pairwise_lt_range _
    exact List.pairwise_map.mp h1
  haveI : IsAntisymm (Nat × String × String) (fun a b => a.1 < b.1) :=
    ⟨fun a b hab hba => absurd hab (Nat.lt_asymm hba)⟩
  exact List.eq_of_perm_of_sorted hperm hlt henum

/-- Claim C7: for every permutation in which the per-slot results arrive (one
per slot), sorting the collected results by slot index yields the original
selection order; completion order cannot affect the final aggregated order. -/
theorem completion_order_immaterial (canonical : List (String × String))
    (arr : List (Nat × String × String))
    (h : List.Perm arr canonical.enum) : sort_outputs arr = canonical.enum :=
  sort_outputs_eq_enum canonical arr h

/-- Witness for C7: two results arriving in reversed order sort back to slot
order. -/
theorem completion_order_immaterial_witness :
    List.Perm ([(1, ("b", "y")), (0, ("a", "x"))] : List (Nat × String × String))
      ([("a", "x"), ("b", "y")] : List (String × String)).enum ∧
    sort_outputs [(1, ("b", "y")), (0, ("a", "x"))] =
      ([("a", "x"), ("b", "y")] : List (String × String)).enum := by
  have hp : List.Perm ([(1, ("b", "y")), (0, ("a", "x"))] : List (Nat × String × String))
      ([("a", "x"), ("b", "y")] : List (String × String)).enum := List.Perm.swap _ _ _
  exact ⟨hp, completion_order_immaterial _ _ hp⟩

/-- Claim C3: the synthesis prompt built from a fixed ordered result sequence
carries the total result count, the original task, and every result's lens
name and full text, each in its own slot-ordered segment; and whatever order
the results arrived in, sorting by slot feeds the identical ordered sequence
to the prompt builder, so the output is independent of completion order. -/
theorem synthesis_prompt_roundtrip (outputs : List (Nat × String × String)) (task : String)
    (canonical : List (String × String)) (arr : List (Nat × String × String))
    (h : List.Perm arr canonical.enum) :
    containsInOrder (create_synthesis_prompt outputs task)
      ([toString outputs.length, task] ++
        outputs.flatMap (fun e => [to_uppercase e.2.1, e.2.2])) ∧
    create_synthesis_prompt (sort_outputs arr) task =
      create_synthesis_prompt canonical.enum task :=
  ⟨synthesis_prompt_embeds outputs task, by rw [sort_outputs_eq_enum canonical arr h]⟩

/-- Witness for C3 on a one-result run. -/
theorem synthesis_prompt_roundtrip_witness :
    List.Perm ([(0, ("a", "x"))] : List (Nat × String × String))
      ([("a", "x")] : List (String × String)).enum ∧
    (containsInOrder (create_synthesis_prompt [(0, ("a", "x"))] "t")
      ([toString ([(0, ("a", "x"))] : List (Nat × String × String)).length, "t"] ++
        ([(0, ("a", "x"))] : List (Nat × String × String)).flatMap
          (fun e => [to_uppercase e.2.1, e.2.2])) ∧
    create_synthesis_prompt (sort_outputs [(0, ("a", "x"))]) "t" =
      create_synthesis_prompt ([("a", "x")] : List (String × String)).enum "t") := by
  have hp : List.Perm ([(0, ("a", "x"))] : List (Nat × String × String))
      ([("a", "x")] : List (String × String)).enum := List.Perm.refl _
  exact ⟨hp, synthesis_prompt_roundtrip _ "t" _ _ hp⟩

/-- Mapping a constant over a list yields a replicate of its length. -/
theorem map_const_eq_replicate {α β : Type} (l : List α) (b : β) :
    l.map (fun _ => b) = List.replicate l.length b := by
  induction l with
  | nil => rfl
  | cons a l ih => simp [List.replicate, ih]

/-- Claim C8: under `--no-synthesize` the synthesis phase makes no executor
call; otherwise it makes exactly one, whose prompt is the synthesis prompt
over the ordered results — embedding every member lens name and text — and
whose timeout and model are the same run parameters every member dispatch
uses. -/
theorem synthesis_phase_calls (constraints : List Constraint)
    (outputs : List (Nat × String × String)) (task : String)
    (timeout : Nat) (model : Option String) :
    synthesis_calls true outputs task timeout model = [] ∧
    synthesis_calls false outputs task timeout model =
      [ExecCall.mk (create_synthesis_prompt outputs task) timeout model] ∧
    (synthesis_calls false outputs task timeout model).length = 1 ∧
    (member_calls constraints task timeout model).map (fun call => call.timeout) =
      List.replicate constraints.length timeout ∧
    (member_calls constraints task timeout model).map (fun call => call.model) =
      List.replicate constraints.length model ∧
    containsInOrder (create_synthesis_prompt outputs task)
      (outputs.flatMap (fun e => [to_uppercase e.2.1, e.2.2])) := by
  refine ⟨rfl, rfl, rfl, ?_, ?_, ?_⟩
  · simp only [member_calls, List.map_map]
    exact map_const_eq_replicate constraints timeout
  · simp only [member_calls, List.map_map]
    exact map_const_eq_replicate constraints model
  · exact containsInOrder_tail _ _ _
      (containsInOrder_tail _ _ _ (synthesis_prompt_embeds outputs task))
